import Mathlib

set_option maxRecDepth 4000

/-!
Shallow embedding of the `jenkinsfilelint` package (files
`jenkinsfilelint/linter.py` and `jenkinsfilelint/cli.py`).

Conventions used throughout:
* Python strings are Lean `String`s (or `List Char` where character-level
  scanning is needed); only ASCII text occurs in the properties below, so the
  ASCII fragments of Python's Unicode-aware `str.strip`, `re.\s` and `re.\w`
  are modelled.
* `None`-able Python values are `Option`s; a Python function that can raise an
  uncaught exception is modelled with `Except`, and a Python function that can
  fall off its end (returning `None` where a pair is documented) returns an
  `Option` result.
* I/O (file reads, the HTTP POST, `os.environ`) is modelled by its result: the
  functions below take the file content / parsed response body / environment
  snapshot as explicit arguments.
-/

/-- ASCII whitespace recognised by Python's `str.strip()` and by `\s` in the
`re` module: space, tab, newline, carriage return, vertical tab, form feed. -/
def isPySpace (c : Char) : Bool :=
  c == ' ' || c == '\t' || c == '\n' || c == '\r' || c == '\x0b' || c == '\x0c'

/-- ASCII word characters, the ASCII fragment of `\w` in Python's `re` module
(used for the `\b` word boundary): letters, digits and underscore. -/
def isWordChar (c : Char) : Bool :=
  c.isAlphanum || c == '_'

/-- Python `str.strip()`: remove leading and trailing whitespace. -/
def pyStrip (l : List Char) : List Char :=
  ((l.dropWhile isPySpace).reverse.dropWhile isPySpace).reverse

/-- Does `cs` start with `needle`? (character-level prefix test). -/
def isPrefixChars : List Char → List Char → Bool
  | [], _ => true
  | _ :: _, [] => false
  | a :: as, b :: bs => a == b && isPrefixChars as bs

/-- Python's substring operator `needle in hay`, at character-list level:
`needle` occurs contiguously somewhere in `hay`. -/
def containsSub (needle : List Char) : List Char → Bool
  | [] => isPrefixChars needle []
  | c :: rest => isPrefixChars needle (c :: rest) || containsSub needle rest

/-- Python's `pat in hay` on strings. -/
def strContains (hay pat : String) : Bool :=
  containsSub pat.data hay.data

/-- The literal characters of the token `pipeline` in the regular expression
`\bpipeline\s*\{` of `_validate_syntax` (linter.py line 129). -/
def pipelineTok : List Char :=
  ['p', 'i', 'p', 'e', 'l', 'i', 'n', 'e']

/-- The literal characters of the token `@Library` in the regular expression
`@Library\s*\(` of `_validate_syntax` (linter.py line 130). -/
def libraryTok : List Char :=
  ['@', 'L', 'i', 'b', 'r', 'a', 'r', 'y']

/-- Does the regular expression `pipeline\s*\{` match at the very start of
`cs`? (the `\b` to its left is handled by the caller). -/
def matchPipelineAt (cs : List Char) : Bool :=
  isPrefixChars pipelineTok cs &&
    (match (cs.drop 8).dropWhile isPySpace with
     | '\x7b' :: _ => true
     | _ => false)

/-- Does the regular expression `@Library\s*\(` match at the very start of
`cs`? -/
def matchLibraryAt (cs : List Char) : Bool :=
  isPrefixChars libraryTok cs &&
    (match (cs.drop 8).dropWhile isPySpace with
     | '(' :: _ => true
     | _ => false)

/-- `re.search` of `\bpipeline\s*\{` over the text: try the pattern at every
position whose preceding character is not a word character (the first letter
`p` is a word character, so the `\b` boundary holds exactly there; at the
start of the text `prevIsWord` is `false`). -/
def searchPipelineFrom (prevIsWord : Bool) : List Char → Bool
  | [] => false
  | c :: rest =>
      (!prevIsWord && matchPipelineAt (c :: rest)) || searchPipelineFrom (isWordChar c) rest

/-- `re.search` of `@Library\s*\(` over the text: try the pattern at every
position (no word-boundary anchor in this pattern). -/
def searchLibraryFrom : List Char → Bool
  | [] => false
  | c :: rest => matchLibraryAt (c :: rest) || searchLibraryFrom rest

/-- The `has_pipeline` boolean computed by `_validate_syntax`
(linter.py lines 128-131): either regular expression matches somewhere. -/
def has_pipeline (content : String) : Bool :=
  searchPipelineFrom false content.data || searchLibraryFrom content.data

/-- Embeds `JenkinsfileLinter._validate_syntax` (linter.py lines 107-146),
applied to the file content after a successful read (the `IOError` branch is
outside this model, which takes the content as an argument). -/
def validateSyntax (content : String) : Bool × String :=
  if (pyStrip content.data).isEmpty then
    (false, "Jenkinsfile is empty")
  else if has_pipeline content then
    (true, "Jenkinsfile appears valid (basic syntax check only). For full validation, set JENKINS_URL, JENKINS_USER, and JENKINS_TOKEN.")
  else
    (false, "Warning: File does not appear to contain a pipeline declaration. For full validation, provide Jenkins credentials.")

/-! ### JSON values and the remote-response handling of `_validate_with_jenkins` -/

/-- Parsed JSON values as returned by `response.json()`. Numbers are modelled
as integers (no property below involves a fractional number); objects are
association lists with distinct keys, as produced by Python's JSON parser. -/
inductive Json where
  | jnull : Json
  | jbool : Bool → Json
  | jnum : Int → Json
  | jstr : String → Json
  | jarr : List Json → Json
  | jobj : List (String × Json) → Json

/-- Python `dict` lookup on an object's field list (keys are distinct, so the
first match is the value). -/
def lookupField : List (String × Json) → String → Option Json
  | [], _ => none
  | (k, v) :: fs, key => if k == key then some v else lookupField fs key

/-- Python `dict.get(key, default)`. -/
def lookupD (fs : List (String × Json)) (key : String) (dflt : Json) : Json :=
  (lookupField fs key).getD dflt

/-- Python truthiness (`if errors:`) of a parsed JSON value. -/
def pyTruthy : Json → Bool
  | Json.jnull => false
  | Json.jbool b => b
  | Json.jnum n => n != 0
  | Json.jstr s => s != ""
  | Json.jarr xs => !xs.isEmpty
  | Json.jobj fs => !fs.isEmpty

/-- Python iteration `for err in errors` over a parsed JSON value: lists yield
their elements, strings their characters, dicts their keys; other values raise
`TypeError`. -/
def pyIter : Json → Except String (List Json)
  | Json.jarr es => Except.ok es
  | Json.jstr s => Except.ok (s.data.map (fun c => Json.jstr (String.singleton c)))
  | Json.jobj fs => Except.ok (fs.map (fun p => Json.jstr p.1))
  | _ => Except.error "TypeError: object is not iterable"

mutual

/-- Python `repr` of a parsed JSON value (what `str` prints for containers):
dicts and lists in brace/bracket notation with single-quoted strings. -/
def pyRepr : Json → String
  | Json.jnull => "None"
  | Json.jbool b => if b then "True" else "False"
  | Json.jnum n => toString n
  | Json.jstr s => "\x27" ++ s ++ "\x27"
  | Json.jarr xs => "[" ++ pyReprList xs ++ "]"
  | Json.jobj fs => "\x7b" ++ pyReprFields fs ++ "\x7d"

/-- Comma-separated `repr`s of list elements. -/
def pyReprList : List Json → String
  | [] => ""
  | [x] => pyRepr x
  | x :: y :: xs => pyRepr x ++ ", " ++ pyReprList (y :: xs)

/-- Comma-separated `key: repr(value)` pairs of a dict. -/
def pyReprFields : List (String × Json) → String
  | [] => ""
  | [(k, v)] => "\x27" ++ k ++ "\x27: " ++ pyRepr v
  | (k, v) :: f :: fs => "\x27" ++ k ++ "\x27: " ++ pyRepr v ++ ", " ++ pyReprFields (f :: fs)

end

/-- Python `str(x)` on a parsed JSON value: a bare string for `str`, `repr`
notation for everything else (`str(result_json)` and `str(err)` in
linter.py lines 84 and 89). -/
def pyStr : Json → String
  | Json.jstr s => s
  | j => pyRepr j

/-- The test `result_json.get("status") == "ok"` (linter.py line 79): true
exactly when the object's `status` field is the string `"ok"`. -/
def statusIsOk (fs : List (String × Json)) : Bool :=
  match lookupField fs "status" with
  | some (Json.jstr s) => s == "ok"
  | _ => false

/-- Embeds the JSON branch of `JenkinsfileLinter._validate_with_jenkins`
(linter.py lines 76-91), given that `response.json()` succeeded with value
`j`.  The result is `Except.error e` when an exception `e` escapes the
function (the surrounding handlers catch only `ValueError` and
`requests.exceptions.RequestException`), `Except.ok none` when control falls
off the end of the Python function (which then returns `None` instead of a
pair), and `Except.ok (some v)` when the verdict pair `v` is returned. -/
def processJsonBody (j : Json) : Except String (Option (Bool × String)) :=
  match j with
  | Json.jobj fs =>
      if statusIsOk fs then
        Except.ok (some (true, "Jenkinsfile successfully validated"))
      else
        match lookupD fs "data" (Json.jobj []) with
        | Json.jobj dataFs =>
            let errs := lookupD dataFs "errors" (Json.jarr [])
            if pyTruthy errs then
              match pyIter errs with
              | Except.ok es =>
                  Except.ok (some (false, "Validation errors:\n" ++ String.intercalate "\n" (es.map pyStr)))
              | Except.error e => Except.error e
            else
              Except.ok (some (false, pyStr j))
        | _ => Except.error "AttributeError: object has no attribute get"
  | _ => Except.ok none

/-- The fixed list `error_indicators` of `_validate_with_jenkins`
(linter.py lines 96-104). -/
def error_indicators : List String :=
  ["Errors", "error", "No Jenkinsfile specified", "WorkflowScript:", "Expected",
   "unexpected token", "unable to resolve class"]

/-- Embeds the plain-text fallback of `_validate_with_jenkins`
(linter.py lines 92-109): strip the body, fail when any indicator occurs. -/
def textFallback (text : String) : Bool × String :=
  let result := String.mk (pyStrip text.data)
  if error_indicators.any (fun ind => strContains result ind) then
    (false, result)
  else
    (true, result)

/-- Embeds the whole response-body handling of `_validate_with_jenkins` after
a 2xx response: `parsed` is `some j` when the body parses as JSON value `j`
(in which case the JSON branch runs) and `none` when `response.json()` raises
`ValueError` (in which case the text fallback runs on the body `text`). -/
def handleResponseBody (parsed : Option Json) (text : String) :
    Except String (Option (Bool × String)) :=
  match parsed with
  | some j => processJsonBody j
  | none => Except.ok (some (textFallback text))

/-! ### Configuration resolution (`JenkinsfileLinter.__init__`) -/

/-- Snapshot of the three environment variables read by
`JenkinsfileLinter.__init__` via `os.environ.get` (linter.py lines 26-28);
`none` models an unset variable. -/
structure Environ where
  JENKINS_URL : Option String
  JENKINS_USER : Option String
  JENKINS_TOKEN : Option String

/-- The linter's configuration fields after `__init__`. -/
structure JenkinsfileLinter where
  jenkins_url : Option String
  username : Option String
  token : Option String

/-- Python's `arg or os.environ.get(VAR)` (linter.py lines 26-28): the left
operand wins exactly when it is truthy, i.e. a present, non-empty string;
`None` and `""` both fall through to the environment value. -/
def resolveConfigField (arg : Option String) (envVal : Option String) : Option String :=
  match arg with
  | some a => if a == "" then envVal else some a
  | none => envVal

/-- Embeds `JenkinsfileLinter.__init__` (linter.py lines 13-28). -/
def linterInit (jenkins_url username token : Option String) (env : Environ) :
    JenkinsfileLinter :=
  { jenkins_url := resolveConfigField jenkins_url env.JENKINS_URL
    username := resolveConfigField username env.JENKINS_USER
    token := resolveConfigField token env.JENKINS_TOKEN }

/-! ### Glob filtering (`should_skip_file` / `should_include_file`)

The patterns are matched with `pathlib.Path.match` (cli.py lines 28-29 and
48-49), whose documented semantics are: the path and the pattern are split
into `/`-separated segments, a relative pattern matches when its segments
glob-match the final segments of the path one-to-one (right-anchored), and a
wildcard never crosses a segment boundary.  The model below covers relative
patterns built from literal characters and the `*` / `?` wildcards (the CLI
are not modelled). -/

/-- Fuel-driven glob matcher for one path segment (`fnmatch` without
character classes): `*` matches any run of characters inside the segment,
`?` any single character, anything else itself.  Each recursive call consumes
a pattern or a subject character, so fuel `p.length + s.length + 1` is never
exhausted. -/
def fnmatchFuel : Nat → List Char → List Char → Bool
  | 0, _, _ => false
  | _ + 1, [], s => s.isEmpty
  | fuel + 1, '*' :: ps, s =>
      fnmatchFuel fuel ps s ||
        (match s with
         | [] => false
         | _ :: s2 => fnmatchFuel fuel ('*' :: ps) s2)
  | fuel + 1, '?' :: ps, s =>
      (match s with
       | [] => false
       | _ :: s2 => fnmatchFuel fuel ps s2)
  | fuel + 1, c :: ps, s =>
      (match s with
       | [] => false
       | d :: s2 => c == d && fnmatchFuel fuel ps s2)

/-- Glob match of one pattern segment against one path segment. -/
def fnmatchSeg (p s : List Char) : Bool :=
  fnmatchFuel (p.length + s.length + 1) p s

/-- Split a character list at `/` separators. -/
def splitOnSlash : List Char → List (List Char)
  | [] => [[]]
  | c :: rest =>
      if c = '/' then [] :: splitOnSlash rest
      else
        match splitOnSlash rest with
        | [] => [[c]]
        | seg :: segs => (c :: seg) :: segs

/-- The `/`-separated segments of a path as normalised by `pathlib`: empty
segments (from repeated or trailing slashes) and `.` segments are dropped. -/
def splitSegs (s : String) : List (List Char) :=
  (splitOnSlash s.data).filter (fun seg => !seg.isEmpty && seg != ['.'])

/-- Right-anchored segment matching: the pattern segments must glob-match the
last `patSegs.length` segments of the path one-to-one. -/
def matchSegsFrom (patSegs pathSegs : List (List Char)) : Bool :=
  if patSegs.length ≤ pathSegs.length then
    (List.zip patSegs (pathSegs.drop (pathSegs.length - patSegs.length))).all
      (fun pr => fnmatchSeg pr.1 pr.2)
  else false

/-- `pathlib.Path(filepath).match(pattern)` for a relative pattern (an empty
pattern, which raises `ValueError` in Python, is modelled as no match). -/
def pathMatch (filepath pattern : String) : Bool :=
  let patSegs := splitSegs pattern
  if patSegs.isEmpty then false
  else matchSegsFrom patSegs (splitSegs filepath)

/-- Embeds `should_skip_file` (cli.py lines 13-30). -/
def should_skip_file (filepath : String) (skip_patterns : List String) : Bool :=
  if skip_patterns.isEmpty then false
  else skip_patterns.any (fun pattern => pathMatch filepath pattern)

/-- Embeds `should_include_file` (cli.py lines 33-51). -/
def should_include_file (filepath : String) (include_patterns : List String) : Bool :=
  if include_patterns.isEmpty then true
  else include_patterns.any (fun pattern => pathMatch filepath pattern)

/-! ### The runner loop of `cli.main` (cli.py lines 134-169)

The per-file call `linter.validate(jenkinsfile)` performs file-system and
network I/O, so the loop is modelled over an oracle `validate : String →
Bool × String` giving each path's verdict; `stdoutLines` / `stderrLines`
record the `print` calls, and `validatedFiles` records exactly the paths on
which `linter.validate` is invoked. -/

/-- The mutable state of the loop in `main`: the `all_valid` flag, the
`printed_messages` deduplication set (as the list of messages in insertion
order), the two output streams, and the instrumented list of paths passed to
`linter.validate`. -/
structure RunState where
  allValid : Bool
  printedMessages : List String
  stdoutLines : List String
  stderrLines : List String
  validatedFiles : List String

/-- Loop state at the start of `main`: `all_valid = True`,
`printed_messages = set()`, nothing printed, no file validated yet. -/
def initState : RunState :=
  { allValid := true, printedMessages := [], stdoutLines := [], stderrLines := [],
    validatedFiles := [] }

/-- Embeds the verdict branch of the loop body (cli.py lines 155-166): print
the success lines, or print the failure message to stderr unless already
printed, and clear `all_valid`. -/
def processVerdict (verbose : Bool) (numFiles : Nat) (jenkinsfile : String)
    (verdict : Bool × String) (st : RunState) : RunState :=
  if verdict.1 then
    let st1 :=
      if verbose || numFiles > 1 then
        { st with stdoutLines := st.stdoutLines ++ ["✓ " ++ jenkinsfile ++ ": Valid"] }
      else st
    if verbose && verdict.2 != "" then
      { st1 with stdoutLines := st1.stdoutLines ++ ["  " ++ verdict.2] }
    else st1
  else
    if verdict.2 ∈ st.printedMessages then
      { st with allValid := false }
    else
      { st with allValid := false,
                printedMessages := st.printedMessages ++ [verdict.2],
                stderrLines := st.stderrLines ++ ["  " ++ verdict.2] }

/-- Embeds one iteration of the loop in `main` (cli.py lines 137-166): the
skip filter, the include filter, the verbose progress line, then the call to
`linter.validate` and the verdict branch. -/
def processFile (validate : String → Bool × String) (skip incl : List String)
    (verbose : Bool) (numFiles : Nat) (st : RunState) (jenkinsfile : String) : RunState :=
  if should_skip_file jenkinsfile skip then
    if verbose then
      { st with stdoutLines :=
          st.stdoutLines ++ ["⊘ " ++ jenkinsfile ++ ": Skipped (matches skip pattern)"] }
    else st
  else if !should_include_file jenkinsfile incl then
    if verbose then
      { st with stdoutLines :=
          st.stdoutLines ++ ["⊘ " ++ jenkinsfile ++ ": Skipped (does not match include pattern)"] }
    else st
  else
    processVerdict verbose numFiles jenkinsfile (validate jenkinsfile)
      { st with
          stdoutLines :=
            st.stdoutLines ++ (if verbose then ["Validating " ++ jenkinsfile ++ "..."] else []),
          validatedFiles := st.validatedFiles ++ [jenkinsfile] }

/-- Embeds `main` of cli.py (lines 134-169) from the point where the arguments
are parsed: run the loop over the files in order and exit with
`0 if all_valid else 1`.  Returns the final loop state and the exit code. -/
def cliMain (validate : String → Bool × String) (files skip incl : List String)
    (verbose : Bool) : RunState × Nat :=
  let final := files.foldl (processFile validate skip incl verbose files.length) initState
  (final, if final.allValid then 0 else 1)

/-! ### Helper lemmas -/

/-- A file passes both filters: it matches no skip pattern and, when include
patterns are given, matches at least one of them. -/
def passesFilters (f : String) (skip incl : List String) : Bool :=
  !should_skip_file f skip && should_include_file f incl

theorem processVerdict_allValid (vb : Bool) (n : Nat) (f : String) (v : Bool × String)
    (st : RunState) : (processVerdict vb n f v st).allValid = (st.allValid && v.1) := by
  rcases v with ⟨valid, msg⟩
  cases valid <;>
    simp [processVerdict, apply_ite RunState.allValid]

theorem processVerdict_validatedFiles (vb : Bool) (n : Nat) (f : String) (v : Bool × String)
    (st : RunState) : (processVerdict vb n f v st).validatedFiles = st.validatedFiles := by
  rcases v with ⟨valid, msg⟩
  cases valid <;>
    simp [processVerdict, apply_ite RunState.validatedFiles]

theorem processFile_allValid (val : String → Bool × String) (sp ip : List String)
    (vb : Bool) (n : Nat) (st : RunState) (f : String) :
    (processFile val sp ip vb n st f).allValid
      = (st.allValid && (!passesFilters f sp ip || (val f).1)) := by
  simp only [processFile]
  split
  · rename_i h
    simp [passesFilters, h, apply_ite RunState.allValid]
  · split
    · rename_i h1 h2
      simp at h1 h2
      simp [passesFilters, h1, h2, apply_ite RunState.allValid]
    · rename_i h1 h2
      simp at h1 h2
      simp [passesFilters, h1, h2, processVerdict_allValid]

theorem processFile_validatedFiles (val : String → Bool × String) (sp ip : List String)
    (vb : Bool) (n : Nat) (st : RunState) (f : String) :
    (processFile val sp ip vb n st f).validatedFiles
      = st.validatedFiles ++ (if passesFilters f sp ip then [f] else []) := by
  simp only [processFile]
  split
  · rename_i h
    simp [passesFilters, h, apply_ite RunState.validatedFiles]
  · split
    · rename_i h1 h2
      simp at h1 h2
      simp [passesFilters, h1, h2, apply_ite RunState.validatedFiles]
    · rename_i h1 h2
      simp at h1 h2
      simp [passesFilters, h1, h2, processVerdict_validatedFiles]

theorem foldl_allValid (val : String → Bool × String) (sp ip : List String) (vb : Bool)
    (n : Nat) (files : List String) : ∀ st : RunState,
    (files.foldl (processFile val sp ip vb n) st).allValid
      = (st.allValid && files.all (fun f => !passesFilters f sp ip || (val f).1)) := by
  induction files with
  | nil => intro st; simp
  | cons f fs ih =>
      intro st
      simp only [List.foldl_cons, List.all_cons]
      rw [ih, processFile_allValid]
      simp [Bool.and_assoc]

theorem foldl_validatedFiles (val : String → Bool × String) (sp ip : List String) (vb : Bool)
    (n : Nat) (files : List String) : ∀ st : RunState,
    (files.foldl (processFile val sp ip vb n) st).validatedFiles
      = st.validatedFiles ++ files.filter (fun f => passesFilters f sp ip) := by
  induction files with
  | nil => intro st; simp
  | cons f fs ih =>
      intro st
      simp only [List.foldl_cons, List.filter_cons]
      rw [ih, processFile_validatedFiles]
      by_cases h : passesFilters f sp ip = true <;> simp [h]

theorem should_skip_file_false_iff (f : String) (sp : List String) :
    should_skip_file f sp = false ↔ ∀ p ∈ sp, pathMatch f p = false := by
  cases sp with
  | nil => simp [should_skip_file]
  | cons p ps => simp [should_skip_file]

theorem should_include_file_true_iff (f : String) (ip : List String) :
    should_include_file f ip = true ↔ (ip = [] ∨ ∃ p ∈ ip, pathMatch f p = true) := by
  cases ip with
  | nil => simp [should_include_file]
  | cons p ps => simp [should_include_file]

theorem exists_not_of_dropWhile (p : Char → Bool) (l : List Char)
    (h : ∃ x ∈ l, p x = false) : ∃ x ∈ l.dropWhile p, p x = false := by
  induction l with
  | nil => simp at h
  | cons c cs ih =>
      rw [List.dropWhile_cons]
      by_cases hc : p c = true
      · rw [if_pos hc]
        apply ih
        rcases h with ⟨x, hx, hpx⟩
        rcases List.mem_cons.mp hx with rfl | hx2
        · rw [hpx] at hc; exact absurd hc (by simp)
        · exact ⟨x, hx2, hpx⟩
      · rw [if_neg hc]
        exact ⟨c, List.mem_cons_self c cs, by simpa using hc⟩

theorem pyStrip_ne_nil (l : List Char) (h : ∃ x ∈ l, isPySpace x = false) :
    pyStrip l ≠ [] := by
  unfold pyStrip
  intro hcontra
  have h1 := exists_not_of_dropWhile isPySpace l h
  have h2 : ∃ x ∈ (l.dropWhile isPySpace).reverse, isPySpace x = false := by
    rcases h1 with ⟨x, hx, hpx⟩
    exact ⟨x, List.mem_reverse.mpr hx, hpx⟩
  rcases exists_not_of_dropWhile isPySpace _ h2 with ⟨x, hx, hpx⟩
  rw [List.reverse_eq_nil_iff] at hcontra
  rw [hcontra] at hx
  exact absurd hx (List.not_mem_nil x)

theorem searchPipeline_nonspace (l : List Char) : ∀ b : Bool,
    searchPipelineFrom b l = true → ∃ x ∈ l, isPySpace x = false := by
  induction l with
  | nil => intro b h; simp [searchPipelineFrom] at h
  | cons c cs ih =>
      intro b h
      simp only [searchPipelineFrom, Bool.or_eq_true, Bool.and_eq_true] at h
      rcases h with ⟨-, hm⟩ | hs
      · have hc : c = 'p' := by
          simp only [matchPipelineAt, Bool.and_eq_true, pipelineTok, isPrefixChars,
            beq_iff_eq] at hm
          exact hm.1.1.symm
        exact ⟨c, List.mem_cons_self c cs, by rw [hc]; decide⟩
      · rcases ih _ hs with ⟨x, hx, hpx⟩
        exact ⟨x, List.mem_cons_of_mem c hx, hpx⟩

theorem searchLibrary_nonspace (l : List Char) :
    searchLibraryFrom l = true → ∃ x ∈ l, isPySpace x = false := by
  induction l with
  | nil => intro h; simp [searchLibraryFrom] at h
  | cons c cs ih =>
      intro h
      simp only [searchLibraryFrom, Bool.or_eq_true] at h
      rcases h with hm | hs
      · have hc : c = '@' := by
          simp only [matchLibraryAt, Bool.and_eq_true, libraryTok, isPrefixChars,
            beq_iff_eq] at hm
          exact hm.1.1.symm
        exact ⟨c, List.mem_cons_self c cs, by rw [hc]; decide⟩
      · rcases ih hs with ⟨x, hx, hpx⟩
        exact ⟨x, List.mem_cons_of_mem c hx, hpx⟩

theorem has_pipeline_strip_ne (content : String) (h : has_pipeline content = true) :
    (pyStrip content.data).isEmpty = false := by
  have hex : ∃ x ∈ content.data, isPySpace x = false := by
    simp only [has_pipeline, Bool.or_eq_true] at h
    rcases h with h | h
    · exact searchPipeline_nonspace _ _ h
    · exact searchLibrary_nonspace _ h
  rcases hl : pyStrip content.data with _ | ⟨a, l⟩
  · exact absurd hl (pyStrip_ne_nil _ hex)
  · rfl

theorem splitOnSlash_no_slash (l : List Char) (h : '/' ∉ l) : splitOnSlash l = [l] := by
  induction l with
  | nil => rfl
  | cons c cs ih =>
      have hc : ¬ c = '/' := fun e => h (by rw [e]; exact List.mem_cons_self _ _)
      have hcs : '/' ∉ cs := fun e => h (List.mem_cons_of_mem c e)
      rw [splitOnSlash, if_neg hc, ih hcs]

theorem splitSegs_single (pattern : String) (h1 : '/' ∉ pattern.data)
    (h2 : pattern.data ≠ []) (h3 : pattern.data ≠ ['.']) :
    splitSegs pattern = [pattern.data] := by
  unfold splitSegs
  rw [splitOnSlash_no_slash pattern.data h1]
  have e1 : pattern.data.isEmpty = false := by
    rcases hl : pattern.data with _ | ⟨a, l⟩
    · exact absurd hl h2
    · rfl
  have e3 : (pattern.data != ['.']) = true := bne_iff_ne.mpr h3
  simp [List.filter_cons, e1, e3]

theorem drop_length_sub_one {α : Type} (d : α) : ∀ l : List α, l ≠ [] →
    l.drop (l.length - 1) = [l.getLastD d] := by
  intro l
  induction l with
  | nil => intro h; exact absurd rfl h
  | cons a l ih =>
      intro _
      cases l with
      | nil => rfl
      | cons b t =>
          have h2 : (b :: t) ≠ [] := by simp
          have hlen : (a :: b :: t).length - 1 = t.length + 1 := by simp
          rw [hlen, List.drop_succ_cons]
          have hlen2 : t.length = (b :: t).length - 1 := by simp
          rw [hlen2, ih h2]
          simp [List.getLastD_cons]

theorem pathMatch_single_seg (path pattern : String) (h1 : '/' ∉ pattern.data)
    (h2 : pattern ≠ "") (h3 : pattern ≠ ".") (h4 : splitSegs path ≠ []) :
    pathMatch path pattern = fnmatchSeg pattern.data ((splitSegs path).getLastD []) := by
  have hd2 : pattern.data ≠ [] := by
    intro e
    exact h2 (String.ext (e.trans rfl))
  have hd3 : pattern.data ≠ ['.'] := by
    intro e
    exact h3 (String.ext (e.trans rfl))
  simp only [pathMatch]
  rw [splitSegs_single pattern h1 hd2 hd3]
  have hlen : 1 ≤ (splitSegs path).length := by
    rcases hl : splitSegs path with _ | ⟨s, ss⟩
    · exact absurd hl h4
    · simp
  rw [if_neg (by simp)]
  unfold matchSegsFrom
  rw [if_pos (by simpa using hlen)]
  simp only [List.length_cons, List.length_nil, Nat.zero_add]
  rw [drop_length_sub_one ([] : List Char) _ h4]
  simp

theorem passesFilters_skip (f : String) (sp ip : List String)
    (h : passesFilters f sp ip = true) : should_skip_file f sp = false := by
  simp only [passesFilters, Bool.and_eq_true, Bool.not_eq_true'] at h
  exact h.1

theorem passesFilters_incl (f : String) (sp ip : List String)
    (h : passesFilters f sp ip = true) : should_include_file f ip = true := by
  simp only [passesFilters, Bool.and_eq_true] at h
  exact h.2

theorem processFile_dedup_stable (val : String → Bool × String) (sp ip : List String)
    (vb : Bool) (n : Nat) (m : String) (st : RunState) (f : String)
    (hpass : passesFilters f sp ip = true) (hv : val f = (false, m))
    (hmem : m ∈ st.printedMessages) :
    (processFile val sp ip vb n st f).stderrLines = st.stderrLines
    ∧ (processFile val sp ip vb n st f).printedMessages = st.printedMessages := by
  have hsk := passesFilters_skip f sp ip hpass
  have hin := passesFilters_incl f sp ip hpass
  simp only [processFile]
  rw [if_neg (by simp [hsk]), if_neg (by simp [hin]), hv]
  simp [processVerdict, hmem]

theorem processFile_first_emit (val : String → Bool × String) (sp ip : List String)
    (vb : Bool) (n : Nat) (m : String) (st : RunState) (f : String)
    (hpass : passesFilters f sp ip = true) (hv : val f = (false, m))
    (hmem : m ∉ st.printedMessages) :
    (processFile val sp ip vb n st f).stderrLines = st.stderrLines ++ ["  " ++ m]
    ∧ (processFile val sp ip vb n st f).printedMessages = st.printedMessages ++ [m] := by
  have hsk := passesFilters_skip f sp ip hpass
  have hin := passesFilters_incl f sp ip hpass
  simp only [processFile]
  rw [if_neg (by simp [hsk]), if_neg (by simp [hin]), hv]
  simp [processVerdict, hmem]

theorem foldl_dedup_stable (val : String → Bool × String) (sp ip : List String) (vb : Bool)
    (n : Nat) (m : String) (files : List String) : ∀ st : RunState,
    (∀ f ∈ files, passesFilters f sp ip = true ∧ val f = (false, m)) →
    m ∈ st.printedMessages →
    (files.foldl (processFile val sp ip vb n) st).stderrLines = st.stderrLines := by
  induction files with
  | nil => intro st _ _; rfl
  | cons f fs ih =>
      intro st hall hmem
      have hf := hall f (List.mem_cons_self f fs)
      have hstable := processFile_dedup_stable val sp ip vb n m st f hf.1 hf.2 hmem
      simp only [List.foldl_cons]
      rw [ih _ (fun g hg => hall g (List.mem_cons_of_mem f hg))
        (by rw [hstable.2]; exact hmem)]
      exact hstable.1

/-! ### Claims -/

/-- C1: the claim states that `validate` always returns a verdict pair and
that the remote branch never returns a non-pair and never lets an exception
escape.  The code violates this (contradicting its own docstring, which
promises a `Tuple[bool, str]`): when the response body parses as JSON that is
not an object (here the array `[1, 2]`), control falls off the end of
`_validate_with_jenkins` and Python returns `None` instead of a pair; when it
parses as an object whose `data` field is not an object, the chained `.get`
raises an uncaught `AttributeError`. -/
theorem remote_json_nonobject_nonverdict :
    handleResponseBody (some (Json.jarr [Json.jnum 1, Json.jnum 2])) "[1, 2]"
      = Except.ok none
    ∧ handleResponseBody
        (some (Json.jobj [("status", Json.jstr "error"), ("data", Json.jstr "oops")]))
        "" = Except.error "AttributeError: object has no attribute get" :=
  ⟨rfl, rfl⟩

/-- C2 counterexample: the text "mypipeline {" contains the substring
"pipeline {" yet the local heuristic rejects it, because the code anchors the
pipeline marker with the word boundary `\b` — plain substring search is not
what the code does. -/
theorem substring_marker_counterexample :
    strContains "mypipeline \x7b" "pipeline \x7b" = true
    ∧ (validateSyntax "mypipeline \x7b").1 = false := by
  decide

/-- C2 (amended): for every file whose text matches `\bpipeline\s*\{` (the
token `pipeline` preceded by start-of-text or a non-word character, then
optional whitespace, then an opening brace) or matches `@Library\s*\(`, the
local heuristic returns valid=true; the match is a regex search anywhere in
the text, not anchored. -/
theorem word_boundary_marker_valid (content : String)
    (h : has_pipeline content = true) : (validateSyntax content).1 = true := by
  have hne := has_pipeline_strip_ne content h
  simp [validateSyntax, hne, h]

theorem word_boundary_marker_valid_witness :
    has_pipeline "pipeline \x7b agent any \x7d" = true
    ∧ (validateSyntax "pipeline \x7b agent any \x7d").1 = true :=
  ⟨by decide, word_boundary_marker_valid "pipeline \x7b agent any \x7d" (by decide)⟩

/-- C3 counterexample: the text "pipeline{" contains neither the substring
"pipeline {" nor "@Library(" and is non-empty, yet the local heuristic
accepts it — the regex `\bpipeline\s*\{` allows zero whitespace before the
brace, so the claim's substring reading fails. -/
theorem no_substring_still_valid_counterexample :
    strContains "pipeline\x7b" "pipeline \x7b" = false
    ∧ strContains "pipeline\x7b" "@Library(" = false
    ∧ (pyStrip "pipeline\x7b".data).isEmpty = false
    ∧ (validateSyntax "pipeline\x7b").1 = true := by
  decide

/-- C3 (amended): for every non-empty (not whitespace-only) file whose text
matches neither the regex `\bpipeline\s*\{` nor the regex `@Library\s*\(`,
the local heuristic returns valid=false. -/
theorem no_regex_marker_invalid (content : String)
    (hne : (pyStrip content.data).isEmpty = false)
    (h : has_pipeline content = false) : (validateSyntax content).1 = false := by
  simp [validateSyntax, hne, h]

theorem no_regex_marker_invalid_witness :
    (pyStrip "hello world".data).isEmpty = false
    ∧ has_pipeline "hello world" = false
    ∧ (validateSyntax "hello world").1 = false :=
  ⟨by decide, by decide, no_regex_marker_invalid "hello world" (by decide) (by decide)⟩

/-- C4: in the remote JSON branch, an object with `status == "ok"` yields
valid=true; a non-ok object with a non-empty `data.errors` list yields
valid=false with the message "Validation errors:\n" followed by the
stringified errors joined by newline; at the spec's example body
`{"status":"error","data":{"errors":["E1","E2"]}}` the message is
"Validation errors:\nE1\nE2", which contains both "E1" and "E2". -/
theorem remote_response_classification :
    (∀ fs : List (String × Json), lookupField fs "status" = some (Json.jstr "ok") →
        processJsonBody (Json.jobj fs)
          = Except.ok (some (true, "Jenkinsfile successfully validated")))
    ∧ (∀ (fs dataFs : List (String × Json)) (es : List Json),
        statusIsOk fs = false →
        lookupD fs "data" (Json.jobj []) = Json.jobj dataFs →
        lookupD dataFs "errors" (Json.jarr []) = Json.jarr es →
        es ≠ [] →
        processJsonBody (Json.jobj fs)
          = Except.ok (some (false,
              "Validation errors:\n" ++ String.intercalate "\n" (es.map pyStr))))
    ∧ processJsonBody (Json.jobj [("status", Json.jstr "error"),
        ("data", Json.jobj [("errors", Json.jarr [Json.jstr "E1", Json.jstr "E2"])])])
        = Except.ok (some (false, "Validation errors:\nE1\nE2"))
    ∧ strContains "Validation errors:\nE1\nE2" "E1" = true
    ∧ strContains "Validation errors:\nE1\nE2" "E2" = true := by
  refine ⟨?_, ?_, rfl, by decide, by decide⟩
  · intro fs h
    simp [processJsonBody, statusIsOk, h]
  · intro fs dataFs es h1 h2 h3 h4
    have hne : es.isEmpty = false := by
      rcases es with _ | _
      · exact absurd rfl h4
      · rfl
    simp [processJsonBody, h1, h2, h3, pyTruthy, pyIter, hne]

theorem remote_response_classification_witness :
    processJsonBody (Json.jobj [("status", Json.jstr "ok")])
      = Except.ok (some (true, "Jenkinsfile successfully validated"))
    ∧ processJsonBody (Json.jobj [("status", Json.jstr "error"),
        ("data", Json.jobj [("errors", Json.jarr [Json.jstr "E1", Json.jstr "E2"])])])
      = Except.ok (some (false, "Validation errors:\n" ++ String.intercalate "\n"
          ([Json.jstr "E1", Json.jstr "E2"].map pyStr))) :=
  ⟨remote_response_classification.1 [("status", Json.jstr "ok")] rfl,
   remote_response_classification.2.1
     [("status", Json.jstr "error"),
      ("data", Json.jobj [("errors", Json.jarr [Json.jstr "E1", Json.jstr "E2"])])]
     [("errors", Json.jarr [Json.jstr "E1", Json.jstr "E2"])]
     [Json.jstr "E1", Json.jstr "E2"] rfl rfl rfl (by simp)⟩

/-- C5: in a run over a non-empty list of files in which every file passes
both filters and fails validation with the identical message `m`, the error
line `"  " ++ m` appears exactly once on the error stream across the whole
run, and the process exit code is 1. -/
theorem dedup_single_emission (val : String → Bool × String)
    (files sp ip : List String) (m : String) (vb : Bool) (hne : files ≠ [])
    (hall : ∀ f ∈ files, passesFilters f sp ip = true ∧ val f = (false, m)) :
    ((cliMain val files sp ip vb).1.stderrLines.count ("  " ++ m) = 1)
    ∧ (cliMain val files sp ip vb).2 = 1 := by
  rcases files with _ | ⟨f, fs⟩
  · exact absurd rfl hne
  · have hf := hall f (List.mem_cons_self f fs)
    have hemit := processFile_first_emit val sp ip vb (f :: fs).length m initState f
      hf.1 hf.2 (by simp [initState])
    have hstderr1 : (processFile val sp ip vb (f :: fs).length initState f).stderrLines
        = ["  " ++ m] := by
      rw [hemit.1]
      rfl
    have hprint1 :
        m ∈ (processFile val sp ip vb (f :: fs).length initState f).printedMessages := by
      rw [hemit.2]
      simp [initState]
    have hstable := foldl_dedup_stable val sp ip vb (f :: fs).length m fs _
      (fun g hg => hall g (List.mem_cons_of_mem f hg)) hprint1
    have hval1 : (processFile val sp ip vb (f :: fs).length initState f).allValid = false := by
      rw [processFile_allValid]
      simp [initState, hf.1, hf.2]
    constructor
    · simp only [cliMain, List.foldl_cons]
      rw [hstable, hstderr1]
      simp
    · simp only [cliMain, List.foldl_cons]
      simp only [foldl_allValid, hval1, Bool.false_and]
      simp

theorem dedup_single_emission_witness :
    ((cliMain (fun _ => (false, "boom")) ["a", "b"] [] [] false).1.stderrLines.count
        ("  " ++ "boom") = 1)
    ∧ (cliMain (fun _ => (false, "boom")) ["a", "b"] [] [] false).2 = 1 :=
  dedup_single_emission (fun _ => (false, "boom")) ["a", "b"] [] [] "boom" false
    (by decide) (by decide)

/-- C6: the exit code is 0 exactly when every processed (non-skipped) file
validated successfully; in particular a run in which every file is filtered
out exits 0 (the condition is vacuous), and any processed failure makes the
exit code 1. -/
theorem exit_code_iff_all_processed_valid (val : String → Bool × String)
    (files sp ip : List String) (vb : Bool) :
    (cliMain val files sp ip vb).2 = 0
      ↔ ∀ f ∈ files, should_skip_file f sp = false → should_include_file f ip = true →
          (val f).1 = true := by
  have key : ∀ f : String, ((!passesFilters f sp ip || (val f).1) = true) ↔
      (should_skip_file f sp = false → should_include_file f ip = true →
        (val f).1 = true) := by
    intro f
    cases hsk : should_skip_file f sp <;> cases hin : should_include_file f ip <;>
      cases hval : (val f).1 <;> simp [passesFilters, hsk, hin, hval]
  have hiff : ∀ b : Bool, ((if b = true then (0 : Nat) else 1) = 0) ↔ b = true := by
    intro b
    cases b <;> simp
  simp only [cliMain]
  rw [foldl_allValid]
  have hinit : initState.allValid = true := rfl
  rw [hinit, Bool.true_and, hiff, List.all_eq_true]
  constructor
  · intro h f hf
    exact (key f).mp (h f hf)
  · intro h f hf
    exact (key f).mpr (h f hf)

theorem exit_code_iff_all_processed_valid_witness :
    (cliMain (fun _ => (true, "ok")) ["a", "b"] [] [] false).2 = 0 :=
  (exit_code_iff_all_processed_valid (fun _ => (true, "ok")) ["a", "b"] [] [] false).mpr
    (by decide)

/-- C7: a file is passed to the Validator exactly when it matches no skip
pattern and, when include patterns are non-empty, matches at least one of
them — each filter an OR over its pattern list; a file matching a skip
pattern, or matching no include pattern when include patterns are given, is
never validated. -/
theorem validated_iff_passes_filters (val : String → Bool × String)
    (files sp ip : List String) (vb : Bool) (f : String) :
    f ∈ (cliMain val files sp ip vb).1.validatedFiles
      ↔ f ∈ files ∧ (∀ p ∈ sp, pathMatch f p = false)
          ∧ (ip = [] ∨ ∃ p ∈ ip, pathMatch f p = true) := by
  simp only [cliMain]
  rw [foldl_validatedFiles]
  have hinit : initState.validatedFiles = [] := rfl
  rw [hinit]
  simp only [List.nil_append]
  rw [List.mem_filter]
  constructor
  · rintro ⟨hmem, hpass⟩
    exact ⟨hmem,
      (should_skip_file_false_iff f sp).mp (passesFilters_skip f sp ip hpass),
      (should_include_file_true_iff f ip).mp (passesFilters_incl f sp ip hpass)⟩
  · rintro ⟨hmem, hskip, hincl⟩
    refine ⟨hmem, ?_⟩
    simp only [passesFilters, Bool.and_eq_true, Bool.not_eq_true']
    exact ⟨(should_skip_file_false_iff f sp).mpr hskip,
      (should_include_file_true_iff f ip).mpr hincl⟩

theorem validated_iff_passes_filters_witness :
    "dir/Jenkinsfile" ∈ (cliMain (fun _ => (true, "ok")) ["dir/Jenkinsfile"]
        ["*.groovy"] ["Jenkinsfile*"] false).1.validatedFiles :=
  (validated_iff_passes_filters (fun _ => (true, "ok")) ["dir/Jenkinsfile"]
      ["*.groovy"] ["Jenkinsfile*"] false "dir/Jenkinsfile").mpr
    ⟨by decide, by decide, by decide⟩

/-- C8 counterexample: with an explicit empty-string service-URL argument and
`JENKINS_URL` set in the environment, the resolved field is the environment
value, not the explicitly passed empty string — Python's `or` discards a
falsy left operand, so the claim fails at the empty string. -/
theorem config_empty_arg_counterexample :
    (linterInit (some "") none none
        ⟨some "http://jenkins.example", none, none⟩).jenkins_url
      = some "http://jenkins.example"
    ∧ (linterInit (some "") none none
        ⟨some "http://jenkins.example", none, none⟩).jenkins_url ≠ some "" := by
  decide

/-- C8 (amended): each of the three configuration fields resolves to the
explicitly passed argument whenever a non-empty one is given; an absent or
empty-string argument falls back to the corresponding environment variable
(JENKINS_URL, JENKINS_USER, JENKINS_TOKEN); when neither source provides a
value the field is absent. -/
theorem config_resolution_priority (a u t : String) (ha : a ≠ "") (hu : u ≠ "")
    (ht : t ≠ "") (env : Environ) :
    linterInit (some a) (some u) (some t) env = ⟨some a, some u, some t⟩
    ∧ linterInit none none none env
        = ⟨env.JENKINS_URL, env.JENKINS_USER, env.JENKINS_TOKEN⟩
    ∧ linterInit (some "") (some "") (some "") env
        = ⟨env.JENKINS_URL, env.JENKINS_USER, env.JENKINS_TOKEN⟩ := by
  refine ⟨?_, rfl, rfl⟩
  simp [linterInit, resolveConfigField, ha, hu, ht]

theorem config_resolution_priority_witness :
    linterInit (some "http://x") (some "u") (some "t")
        ⟨some "http://env", some "eu", some "et"⟩
      = ⟨some "http://x", some "u", some "t"⟩ :=
  (config_resolution_priority "http://x" "u" "t" (by decide) (by decide) (by decide)
    ⟨some "http://env", some "eu", some "et"⟩).1

/-- C9: for every file whose content is empty or consists only of whitespace,
the local heuristic returns valid=false with the message "Jenkinsfile is
empty", which mentions "empty". -/
theorem empty_file_invalid (content : String)
    (h : ∀ c ∈ content.data, isPySpace c = true) :
    validateSyntax content = (false, "Jenkinsfile is empty")
    ∧ strContains "Jenkinsfile is empty" "empty" = true := by
  constructor
  · have h1 : content.data.dropWhile isPySpace = [] :=
      List.dropWhile_eq_nil_iff.mpr h
    simp [validateSyntax, pyStrip, h1]
  · decide

theorem empty_file_invalid_witness :
    validateSyntax " \n\t " = (false, "Jenkinsfile is empty")
    ∧ strContains "Jenkinsfile is empty" "empty" = true :=
  empty_file_invalid " \n\t " (by decide)

/-- C10: the filters use pathlib's right-anchored per-segment glob semantics:
a relative pattern with no path separator matches a path exactly when it
glob-matches the path's final segment, so `Jenkinsfile*` matches
`a/b/Jenkinsfile.prod`; and a `*` never crosses a separator: `a*b` does not
match `a/b` (a flat glob would match it). -/
theorem glob_right_anchored_per_segment :
    (∀ path pattern : String, '/' ∉ pattern.data → pattern ≠ "" → pattern ≠ "." →
        splitSegs path ≠ [] →
        pathMatch path pattern = fnmatchSeg pattern.data ((splitSegs path).getLastD []))
    ∧ pathMatch "a/b/Jenkinsfile.prod" "Jenkinsfile*" = true
    ∧ pathMatch "a/b" "a*b" = false :=
  ⟨fun path pattern h1 h2 h3 h4 => pathMatch_single_seg path pattern h1 h2 h3 h4,
   by decide, by decide⟩

theorem glob_right_anchored_per_segment_witness :
    pathMatch "a/b/Jenkinsfile.prod" "Jenkinsfile*"
      = fnmatchSeg "Jenkinsfile*".data ((splitSegs "a/b/Jenkinsfile.prod").getLastD []) :=
  glob_right_anchored_per_segment.1 "a/b/Jenkinsfile.prod" "Jenkinsfile*"
    (by decide) (by decide) (by decide) (by decide)
